import Mathlib

/-
Shallow embedding of app/utils_standalone_image_gen.py.

The module has two verifiable cores:
  - a byte-budget image resizer (resize_image_bytes), an iterative
    scale-down loop over real-valued widths with truncation to integer
    pixel dimensions and re-encoding through an external PNG encoder;
  - a prediction gateway (predict_image, image_generation,
    edit_image_generation) plus the two submit handlers of the UI
    (render_image_generation_ui, render_image_edit_prompt) that build
    request payloads, call a remote predict RPC and store the returned
    predictions in a string-keyed session store.

External collaborators (the PIL decoder and PNG encoder, the remote
prediction client, the streamlit widgets) are modelled as parameters:
the encoder as a function from the resized image to its encoded bytes,
the remote client as a function from the request payload to a result,
the widget values as plain arguments.  Python floats are idealised as
real numbers, Python bytes as lists of naturals, Python dicts that are
sent over the wire as ordered association lists.
-/

/-- Structured values, the image of Python dicts passed through
json_format.ParseDict.  Field order of an object is the dict insertion
order of the source. -/
inductive JVal where
  | str (s : String)
  | num (n : ℤ)
  | obj (fields : List (String × JVal))

/-- Field lookup in an object value; none on non-objects and on
missing keys. -/
def JVal.lookup (v : JVal) (key : String) : Option JVal :=
  match v with
  | JVal.obj fields => List.lookup key fields
  | _ => none

/-- The base64 alphabet of RFC 4648, the one used by Python
base64.b64encode. -/
def b64Alphabet : List Char :=
  "ABCDEFGHIJKLMNOPQRSTUVWXYZabcdefghijklmnopqrstuvwxyz0123456789+/".toList

/-- The character of a 6-bit group. -/
def b64Char (n : ℕ) : Char := b64Alphabet.getD n '='

/-- Character stream of base64: three input bytes map to four output
characters, with = padding on a short final chunk. -/
def b64Chunks : List ℕ → List Char
  | [] => []
  | [a] => [b64Char (a / 4), b64Char (a % 4 * 16), '=', '=']
  | [a, b] => [b64Char (a / 4), b64Char (a % 4 * 16 + b / 16), b64Char (b % 16 * 4), '=']
  | a :: b :: c :: rest =>
      b64Char (a / 4) :: b64Char (a % 4 * 16 + b / 16) ::
      b64Char (b % 16 * 4 + c / 64) :: b64Char (c % 64) :: b64Chunks rest

/-- base64.b64encode(bytes).decode, with bytes as lists of naturals
below 256. -/
def b64encode (bs : List ℕ) : String := String.mk (b64Chunks bs)

/-- A value held in the streamlit session store: a prediction list, a
byte string, or a text value. -/
inductive SessVal where
  | imgs (preds : List JVal)
  | bytes (b : List ℕ)
  | str (s : String)

/-- st.session_state: a string-keyed store, absent keys mapped to
none. -/
abbrev Session := String → Option SessVal

/-- st.session_state[key] = v. -/
def sessUpdate (st : Session) (key : String) (v : SessVal) : Session :=
  fun k => if k = key then some v else st k

/-- st.session_state.get(key, b""): the stored byte value, empty on a
missing key (and on a key holding a non-byte value). -/
def sessGetBytes (st : Session) (key : String) : List ℕ :=
  match st key with
  | some (SessVal.bytes b) => b
  | _ => []

/-- Reading a text value out of the session, empty on a missing key. -/
def sessGetStr (st : Session) (key : String) : String :=
  match st key with
  | some (SessVal.str s) => s
  | _ => ""

/-- A user-facing widget emission; only st.error matters to the
claims. -/
inductive UiMsg where
  | error (s : String)
deriving DecidableEq

/-- Python: x or default, on strings (empty string is falsy). -/
def pyOrStr (s d : String) : String := if s = "" then d else s

/-- Python: x or default, on integers (zero is falsy). -/
def pyOrInt (n d : ℤ) : ℤ := if n = 0 then d else n

/-- The remote prediction client: from the instances list and the
parameters value to either the prediction list or an error message. -/
abbrev Rpc := List JVal → JVal → Except String (List JVal)

/-- predict_image: wraps the instance dict into a one-element
instances list and calls the remote client.  The first component
records the exact arguments handed to the remote call. -/
def predict_image (rpc : Rpc) (instance_dict : JVal) (parameters : JVal) :
    (List JVal × JVal) × Except String (List JVal) :=
  let instances := [instance_dict]
  ((instances, parameters), rpc instances parameters)

/-- image_generation: builds the generation instance and parameters,
calls predict_image and stores the predictions under state_key.  The
first component is the recorded remote call, the second the resulting
session or the propagated exception. -/
def image_generation (rpc : Rpc) (prompt : String)
    (sample_count sample_image_size : ℤ) (ar : String)
    (state_key : String) (st : Session) :
    (List JVal × JVal) × Except String Session :=
  let r := predict_image rpc
    (JVal.obj [("prompt", JVal.str prompt)])
    (JVal.obj [("sampleCount", JVal.num sample_count),
               ("sampleImageSize", JVal.num sample_image_size),
               ("aspectRatio", JVal.str ar)])
  (r.1, match r.2 with
    | Except.ok preds => Except.ok (sessUpdate st state_key (SessVal.imgs preds))
    | Except.error e => Except.error e)

/-- edit_image_generation: builds the edit instance (base image base64
under image.bytesBase64Encoded, mask appended only when the mask bytes
are non-empty, nested under mask.image.bytesBase64Encoded), parameters
carrying only sampleCount, calls predict_image and stores the
predictions under state_key. -/
def edit_image_generation (rpc : Rpc) (prompt : String) (sample_count : ℤ)
    (bytes_data : List ℕ) (state_key : String) (mask_bytes_data : List ℕ)
    (st : Session) : (List JVal × JVal) × Except String Session :=
  let input_dict := JVal.obj
    ([("prompt", JVal.str prompt),
      ("image", JVal.obj [("bytesBase64Encoded", JVal.str (b64encode bytes_data))])]
     ++ (if mask_bytes_data = [] then []
         else [("mask", JVal.obj [("image",
            JVal.obj [("bytesBase64Encoded", JVal.str (b64encode mask_bytes_data))])])]))
  let r := predict_image rpc input_dict (JVal.obj [("sampleCount", JVal.num sample_count)])
  (r.1, match r.2 with
    | Except.ok preds => Except.ok (sessUpdate st state_key (SessVal.imgs preds))
    | Except.error e => Except.error e)

/-- Outcome of one submit-handler run: the session after the run, the
st.error emissions in order, the remote calls made in order, and the
exception escaping the handler when one does. -/
structure HandlerOut where
  session : Session
  msgs : List UiMsg
  calls : List (List JVal × JVal)
  exn : Option String

/-- The submit branch of render_image_generation_ui: choose the
question (custom prompt wins over the dropdown and is written to the
prompt key), run image_generation inside a bare try, and on failure
emit the single generic error message. -/
def gen_submit_handler (rpc : Rpc) (image_custom_prompt select_prompt : String)
    (sample_count sample_image_size : ℤ) (ar : String)
    (image_text_prompt_key generated_images_key : String) (st : Session) :
    HandlerOut :=
  let st1 :=
    if image_custom_prompt ≠ "" then
      sessUpdate st image_text_prompt_key (SessVal.str image_custom_prompt)
    else st
  let question := if image_custom_prompt ≠ "" then image_custom_prompt else select_prompt
  match image_generation rpc (pyOrStr question "") (pyOrInt sample_count 1)
      (pyOrInt sample_image_size 256) (pyOrStr ar "1:1")
      generated_images_key st1 with
  | (call, Except.ok st2) => ⟨st2, [], [call], none⟩
  | (call, Except.error _) =>
      ⟨st1, [UiMsg.error "Could not generate image. Try a different prompt."],
       [call], none⟩

/-- The submit branch of render_image_edit_prompt: read the image to
edit, resize it when above the byte limit (resize_image_bytes is taken
as a function argument here, its own embedding is below), reject an
empty prompt, otherwise store the prompt and run edit_image_generation
inside a try that on failure emits the exception text and then the
generic message.  An exception of the resize call escapes the handler
uncaught. -/
def edit_submit_handler (rpc : Rpc)
    (resizeFn : List ℕ → Except String (List ℕ)) (bytes_limit : ℕ)
    (edit_image_prompt : String) (sample_count : ℤ)
    (edit_image_prompt_key edited_images_key image_to_edit_key mask_image_key : String)
    (mask_image : Bool) (st : Session) : HandlerOut :=
  match st image_to_edit_key with
  | some (SessVal.bytes bytes_data) =>
    if bytes_data ≠ [] then
      match (if bytes_data.length > bytes_limit then resizeFn bytes_data
             else Except.ok bytes_data) with
      | Except.error e => ⟨st, [], [], some e⟩
      | Except.ok bytes2 =>
        if edit_image_prompt = "" then
          ⟨st, [UiMsg.error "Provide a prompt for editing the image"], [], none⟩
        else
          let st1 := sessUpdate st edit_image_prompt_key (SessVal.str edit_image_prompt)
          let mask := if mask_image = true ∧ mask_image_key ≠ "" then
              sessGetBytes st1 mask_image_key else []
          match edit_image_generation rpc (sessGetStr st1 edit_image_prompt_key)
              (pyOrInt sample_count 1) bytes2 edited_images_key mask st1 with
          | (call, Except.ok st2) => ⟨st2, [], [call], none⟩
          | (call, Except.error e) =>
              ⟨st1, [UiMsg.error e,
                     UiMsg.error "Could not edit image. Try a different prompt."],
               [call], none⟩
    else ⟨st, [UiMsg.error "No image found to edit"], [], none⟩
  | _ => ⟨st, [], [], some "KeyError"⟩

/-- A PIL image: either the image decoded once from the input bytes
(Image.open, carrying its pixel dimensions), or the product of a
resize call, carrying the image it was resampled from and the target
dimensions. -/
inductive Img where
  | original (w h : ℕ)
  | resized (src : Img) (w h : ℤ)
deriving DecidableEq

/-- The Python exceptions reachable in resize_image_bytes:
ZeroDivisionError from a float division by zero, and the out-of-fuel
marker standing for a loop that is still running after the given
number of iterations. -/
inductive PyErr where
  | zeroDivision
  | outOfFuel
deriving DecidableEq

/-- What one iteration of the resize loop did: the encoded size and
float width on entry, the new float width and height, the image handed
to resize and the integer dimensions requested, and the re-encoded
size. -/
structure IterRecord where
  sizeBefore : ℕ
  widthBefore : ℝ
  newWidth : ℝ
  newHeight : ℝ
  resizeSrc : Img
  resizeDims : ℤ × ℤ
  sizeAfter : ℕ

/-- Python int() on a float: truncation toward zero. -/
noncomputable def pytrunc (x : ℝ) : ℤ := if 0 ≤ x then ⌊x⌋ else ⌈x⌉

/-- The while loop of resize_image_bytes, with fuel counting loop
iterations.  save models img.save into a PNG buffer: the encoded bytes
of a given image.  The loop state is the float width and the current
encoded bytes; the trace accumulates one record per iteration.  A zero
byte limit makes the resize-factor division raise ZeroDivisionError,
a zero aspect (width zero) makes the height division raise it; out of
fuel with the guard still true marks a loop that has not finished. -/
noncomputable def resizeLoop (save : Img → List ℕ) (imgToResize : Img)
    (aspect : ℝ) (limit : ℕ) :
    ℕ → ℝ → List ℕ → List IterRecord → List IterRecord × Except PyErr (List ℕ)
  | 0, _, data, tr =>
      if data.length > limit then (tr, Except.error PyErr.outOfFuel)
      else (tr, Except.ok data)
  | fuel+1, w, data, tr =>
      if data.length > limit then
        if limit = 0 then (tr, Except.error PyErr.zeroDivision)
        else if aspect = 0 then (tr, Except.error PyErr.zeroDivision)
        else
          resizeLoop save imgToResize aspect limit fuel
            (w / Real.sqrt ((data.length : ℝ) / ((limit : ℝ) * (9/10))))
            (save (Img.resized imgToResize
              (pytrunc (w / Real.sqrt ((data.length : ℝ) / ((limit : ℝ) * (9/10)))))
              (pytrunc (w / Real.sqrt ((data.length : ℝ) / ((limit : ℝ) * (9/10))) / aspect))))
            (tr ++ [⟨data.length, w,
              w / Real.sqrt ((data.length : ℝ) / ((limit : ℝ) * (9/10))),
              w / Real.sqrt ((data.length : ℝ) / ((limit : ℝ) * (9/10))) / aspect,
              imgToResize,
              (pytrunc (w / Real.sqrt ((data.length : ℝ) / ((limit : ℝ) * (9/10)))),
               pytrunc (w / Real.sqrt ((data.length : ℝ) / ((limit : ℝ) * (9/10))) / aspect)),
              (save (Img.resized imgToResize
                (pytrunc (w / Real.sqrt ((data.length : ℝ) / ((limit : ℝ) * (9/10)))))
                (pytrunc (w / Real.sqrt ((data.length : ℝ) / ((limit : ℝ) * (9/10))) / aspect)))).length⟩])
      else (tr, Except.ok data)

/-- resize_image_bytes: open the image once (its pixel dimensions imgW
and imgH come from the decoder), compute the float width and the
aspect = width / height (ZeroDivisionError on a zero height), then run
the scale-down loop on the input bytes.  Returns the iteration trace
alongside the result. -/
noncomputable def resize_image_bytes (save : Img → List ℕ) (imgW imgH : ℕ)
    (bytes_data : List ℕ) (bytes_limit : ℕ) (fuel : ℕ) :
    List IterRecord × Except PyErr (List ℕ) :=
  if imgH = 0 then ([], Except.error PyErr.zeroDivision)
  else
    resizeLoop save (Img.original imgW imgH) ((imgW : ℝ) / (imgH : ℝ))
      bytes_limit fuel (imgW : ℝ) bytes_data []

/-- The per-iteration facts the resize loop maintains, with img the
image the loop was started on (the one decoded from the input). -/
def GoodRec (save : Img → List ℕ) (img : Img) (aspect : ℝ) (limit : ℕ)
    (r : IterRecord) : Prop :=
  r.newWidth = r.widthBefore / Real.sqrt ((r.sizeBefore : ℝ) / ((limit : ℝ) * (9/10)))
  ∧ r.newHeight = r.newWidth / aspect
  ∧ r.resizeSrc = img
  ∧ 0 ≤ r.newWidth
  ∧ r.resizeDims = (⌊r.newWidth⌋, ⌊r.newHeight⌋)
  ∧ r.sizeAfter = (save (Img.resized img r.resizeDims.1 r.resizeDims.2)).length
  ∧ limit < r.sizeBefore

/-- A constant external encoder: every save returns the same eight
bytes. -/
def constSave8 : Img → List ℕ := fun _ => List.replicate 8 0

/-- An encoder that returns one byte for the 3 by 1 resize and a large
(703125-byte) encoding for every other image. -/
def save31 : Img → List ℕ := fun img =>
  match img with
  | Img.resized _ w h => if w = 3 ∧ h = 1 then [0] else List.replicate 703125 0
  | _ => List.replicate 703125 0

/-- A remote client that always succeeds with a single prediction. -/
def rpcConst : Rpc := fun _ _ => Except.ok [JVal.str "pic"]

/-- The empty session. -/
def stEmpty : Session := fun _ => none

theorem pytrunc_eq_floor (x : ℝ) (hx : 0 ≤ x) : pytrunc x = ⌊x⌋ := if_pos hx

theorem resizeLoop_exit (save : Img → List ℕ) (img : Img) (aspect : ℝ)
    (limit fuel : ℕ) (w : ℝ) (data : List ℕ) (tr : List IterRecord)
    (hle : data.length ≤ limit) :
    resizeLoop save img aspect limit fuel w data tr = (tr, Except.ok data) := by
  cases fuel <;> simp [resizeLoop, Nat.not_lt.mpr hle]

theorem resizeLoop_step (save : Img → List ℕ) (img : Img) (aspect : ℝ)
    (limit fuel : ℕ) (w : ℝ) (data : List ℕ) (tr : List IterRecord)
    (hgt : data.length > limit) (h0 : limit ≠ 0) (ha : aspect ≠ 0) :
    resizeLoop save img aspect limit (fuel+1) w data tr =
      resizeLoop save img aspect limit fuel
        (w / Real.sqrt ((data.length : ℝ) / ((limit : ℝ) * (9/10))))
        (save (Img.resized img
          (pytrunc (w / Real.sqrt ((data.length : ℝ) / ((limit : ℝ) * (9/10)))))
          (pytrunc (w / Real.sqrt ((data.length : ℝ) / ((limit : ℝ) * (9/10))) / aspect))))
        (tr ++ [⟨data.length, w,
          w / Real.sqrt ((data.length : ℝ) / ((limit : ℝ) * (9/10))),
          w / Real.sqrt ((data.length : ℝ) / ((limit : ℝ) * (9/10))) / aspect,
          img,
          (pytrunc (w / Real.sqrt ((data.length : ℝ) / ((limit : ℝ) * (9/10)))),
           pytrunc (w / Real.sqrt ((data.length : ℝ) / ((limit : ℝ) * (9/10))) / aspect)),
          (save (Img.resized img
            (pytrunc (w / Real.sqrt ((data.length : ℝ) / ((limit : ℝ) * (9/10)))))
            (pytrunc (w / Real.sqrt ((data.length : ℝ) / ((limit : ℝ) * (9/10))) / aspect)))).length⟩]) := by
  rw [resizeLoop, if_pos hgt, if_neg h0, if_neg ha]

theorem resizeLoop_ok_le (save : Img → List ℕ) (img : Img) (aspect : ℝ) (limit : ℕ) :
    ∀ (fuel : ℕ) (w : ℝ) (data : List ℕ) (tr : List IterRecord) (out : List ℕ),
    (resizeLoop save img aspect limit fuel w data tr).2 = Except.ok out →
    out.length ≤ limit := by
  intro fuel
  induction fuel with
  | zero =>
    intro w data tr out h
    by_cases hgt : data.length > limit
    · simp [resizeLoop, hgt] at h
    · simp [resizeLoop, hgt] at h
      subst h
      omega
  | succ n ih =>
    intro w data tr out h
    by_cases hgt : data.length > limit
    · by_cases h0 : limit = 0
      · subst h0
        simp [resizeLoop, hgt] at h
      · by_cases ha : aspect = 0
        · simp [resizeLoop, hgt, h0, ha] at h
        · rw [resizeLoop_step save img aspect limit n w data tr hgt h0 ha] at h
          exact ih _ _ _ _ h
    · simp [resizeLoop, hgt] at h
      subst h
      omega

theorem resizeLoop_trace (save : Img → List ℕ) (img : Img) (aspect : ℝ)
    (limit : ℕ) (haspect : 0 ≤ aspect) :
    ∀ (fuel : ℕ) (w : ℝ) (data : List ℕ) (tr : List IterRecord),
    0 ≤ w →
    (∀ r ∈ tr, GoodRec save img aspect limit r) →
    ∀ r ∈ (resizeLoop save img aspect limit fuel w data tr).1,
      GoodRec save img aspect limit r := by
  intro fuel
  induction fuel with
  | zero =>
    intro w data tr hw htr r hr
    by_cases hgt : data.length > limit
    · rw [resizeLoop, if_pos hgt] at hr
      exact htr r hr
    · rw [resizeLoop, if_neg hgt] at hr
      exact htr r hr
  | succ n ih =>
    intro w data tr hw htr r hr
    by_cases hgt : data.length > limit
    · by_cases h0 : limit = 0
      · rw [resizeLoop, if_pos hgt, if_pos h0] at hr
        exact htr r hr
      · by_cases ha : aspect = 0
        · rw [resizeLoop, if_pos hgt, if_neg h0, if_pos ha] at hr
          exact htr r hr
        · rw [resizeLoop_step save img aspect limit n w data tr hgt h0 ha] at hr
          refine ih _ _ _ (div_nonneg hw (Real.sqrt_nonneg _)) ?_ r hr
          intro r' hr'
          rcases List.mem_append.mp hr' with h' | h'
          · exact htr r' h'
          · rcases List.mem_singleton.mp h' with rfl
            have hw2 : 0 ≤ w / Real.sqrt ((data.length : ℝ) / ((limit : ℝ) * (9/10))) :=
              div_nonneg hw (Real.sqrt_nonneg _)
            have hh2 : 0 ≤ w / Real.sqrt ((data.length : ℝ) / ((limit : ℝ) * (9/10))) / aspect :=
              div_nonneg hw2 haspect
            refine ⟨rfl, rfl, rfl, hw2, ?_, rfl, hgt⟩
            simp only [pytrunc_eq_floor _ hw2, pytrunc_eq_floor _ hh2]
    · rw [resizeLoop, if_neg hgt] at hr
      exact htr r hr

/-- A run of resize_image_bytes that needs exactly one loop iteration:
the first re-encode already fits the limit. -/
theorem resize_one_iter (save : Img → List ℕ) (imgW imgH : ℕ) (data : List ℕ)
    (limit fuel : ℕ) (w2 h2 : ℝ) (d1 d2 : ℤ) (out : List ℕ)
    (hH : imgH ≠ 0) (hgt : data.length > limit) (h0 : limit ≠ 0)
    (ha : (imgW : ℝ) / (imgH : ℝ) ≠ 0)
    (hw2 : (imgW : ℝ) / Real.sqrt ((data.length : ℝ) / ((limit : ℝ) * (9/10))) = w2)
    (hh2 : w2 / ((imgW : ℝ) / (imgH : ℝ)) = h2)
    (hd1 : pytrunc w2 = d1) (hd2 : pytrunc h2 = d2)
    (hsave : save (Img.resized (Img.original imgW imgH) d1 d2) = out)
    (hle : out.length ≤ limit) :
    resize_image_bytes save imgW imgH data limit (fuel+1) =
      ([⟨data.length, (imgW : ℝ), w2, h2, Img.original imgW imgH, (d1, d2), out.length⟩],
       Except.ok out) := by
  unfold resize_image_bytes
  rw [if_neg hH]
  rw [resizeLoop_step save (Img.original imgW imgH) ((imgW : ℝ) / (imgH : ℝ))
    limit fuel (imgW : ℝ) data [] hgt h0 ha]
  rw [hw2, hh2, hd1, hd2, hsave]
  rw [resizeLoop_exit save (Img.original imgW imgH) ((imgW : ℝ) / (imgH : ℝ))
    limit fuel w2 out _ hle]
  simp

theorem run1_eq :
    resize_image_bytes constSave8 2000 1000 (List.replicate 36 0) 10 (49+1) =
      ([⟨36, 2000, 1000, 500, Img.original 2000 1000, (1000, 500), 8⟩],
       Except.ok (List.replicate 8 0)) := by
  have h36 : ((List.replicate 36 (0:ℕ)).length : ℝ) = 36 := by simp
  have hw2 : ((2000:ℕ) : ℝ) /
      Real.sqrt (((List.replicate 36 (0:ℕ)).length : ℝ) / (((10:ℕ) : ℝ) * (9/10))) = 1000 := by
    rw [h36]
    rw [show (36:ℝ) / (((10:ℕ) : ℝ) * (9/10)) = 2^2 by push_cast; norm_num]
    rw [Real.sqrt_sq (by norm_num : (0:ℝ) ≤ 2)]
    push_cast
    norm_num
  have hh2 : (1000 : ℝ) / (((2000:ℕ) : ℝ) / ((1000:ℕ) : ℝ)) = 500 := by
    push_cast
    norm_num
  have hd1 : pytrunc (1000 : ℝ) = 1000 := by
    rw [pytrunc_eq_floor _ (by norm_num)]
    rw [show (1000:ℝ) = ((1000:ℤ) : ℝ) by norm_num, Int.floor_intCast]
  have hd2 : pytrunc (500 : ℝ) = 500 := by
    rw [pytrunc_eq_floor _ (by norm_num)]
    rw [show (500:ℝ) = ((500:ℤ) : ℝ) by norm_num, Int.floor_intCast]
  have h := resize_one_iter constSave8 2000 1000 (List.replicate 36 0) 10 49
    1000 500 1000 500 (List.replicate 8 0)
    (by norm_num) (by simp) (by norm_num)
    (by push_cast; norm_num) hw2 hh2 hd1 hd2 rfl (by simp)
  simpa using h

theorem run2_eq :
    resize_image_bytes save31 2000 1000 (List.replicate 703125 0) 2 (49+1) =
      ([⟨703125, 2000, 16/5, 8/5, Img.original 2000 1000, (3, 1), 1⟩],
       Except.ok [0]) := by
  have hlen : ((List.replicate 703125 (0:ℕ)).length : ℝ) = 703125 := by
    simp only [List.length_replicate]
    norm_num
  have hw2 : ((2000:ℕ) : ℝ) /
      Real.sqrt (((List.replicate 703125 (0:ℕ)).length : ℝ) / (((2:ℕ) : ℝ) * (9/10))) = 16/5 := by
    rw [hlen]
    rw [show (703125:ℝ) / (((2:ℕ) : ℝ) * (9/10)) = 625^2 by push_cast; norm_num]
    rw [Real.sqrt_sq (by norm_num : (0:ℝ) ≤ 625)]
    push_cast
    norm_num
  have hh2 : (16/5 : ℝ) / (((2000:ℕ) : ℝ) / ((1000:ℕ) : ℝ)) = 8/5 := by
    push_cast
    norm_num
  have hd1 : pytrunc (16/5 : ℝ) = 3 := by
    rw [pytrunc_eq_floor _ (by norm_num)]
    rw [Int.floor_eq_iff]
    constructor <;> norm_num
  have hd2 : pytrunc (8/5 : ℝ) = 1 := by
    rw [pytrunc_eq_floor _ (by norm_num)]
    rw [Int.floor_eq_iff]
    constructor <;> norm_num
  have hsave : save31 (Img.resized (Img.original 2000 1000) 3 1) = [0] := rfl
  have h := resize_one_iter save31 2000 1000 (List.replicate 703125 0) 2 49
    (16/5) (8/5) 3 1 [0]
    (by norm_num) (by simp only [List.length_replicate]; norm_num) (by norm_num)
    (by push_cast; norm_num) hw2 hh2 hd1 hd2 hsave (by simp)
  simpa only [List.length_replicate, List.length_singleton, Nat.cast_ofNat] using h

/-- With an encoder whose output never fits the limit (every save
returns two bytes against a one-byte ceiling) the loop guard never
turns false. -/
theorem resize_const_encoder_loops (img : Img) (aspect : ℝ) (ha : aspect ≠ 0) :
    ∀ (fuel : ℕ) (w : ℝ) (tr : List IterRecord),
    (resizeLoop (fun _ => [0, 0]) img aspect 1 fuel w [0, 0] tr).2 =
      Except.error PyErr.outOfFuel := by
  intro fuel
  induction fuel with
  | zero =>
    intro w tr
    rw [resizeLoop, if_pos (by simp : ([0, 0] : List ℕ).length > 1)]
  | succ n ih =>
    intro w tr
    rw [resizeLoop_step (fun _ => [0, 0]) img aspect 1 n w [0, 0] tr
      (by simp) (by norm_num) ha]
    exact ih _ _

/-- C1 counterexample: resize_image_bytes has no iteration cap and
does not terminate within the 50 iterations the spec proposes as the
cap: with an external encoder that re-encodes every resize to two
bytes against a one-byte ceiling, a 2000 by 1000 input whose encoded
size exceeds the ceiling is still in the loop after 50 iterations (and
after any number of iterations), so no output at all is produced. -/
theorem resize_no_cap_counterexample :
    (resize_image_bytes (fun _ => [0, 0]) 2000 1000 [0, 0] 1 50).2 =
      Except.error PyErr.outOfFuel := by
  unfold resize_image_bytes
  rw [if_neg (by norm_num : ¬(1000 : ℕ) = 0)]
  exact resize_const_encoder_loops _ _ (by push_cast; norm_num) 50 _ []

/-- C1 (amended): the loop has no iteration cap and termination
depends on the external encoder; whenever a run of resize_image_bytes
does return bytes, their size is at most the ceiling, and every
iteration resized to the floor of a width/height pair in the exact
original aspect ratio. -/
theorem resize_partial_correctness (save : Img → List ℕ) (imgW imgH : ℕ)
    (data : List ℕ) (limit fuel : ℕ) (out : List ℕ)
    (hH : imgH ≠ 0) (hgt : data.length > limit)
    (hok : (resize_image_bytes save imgW imgH data limit fuel).2 = Except.ok out) :
    out.length ≤ limit ∧
    ∀ r ∈ (resize_image_bytes save imgW imgH data limit fuel).1,
      r.newHeight = r.newWidth / ((imgW : ℝ) / (imgH : ℝ)) ∧
      r.resizeDims = (⌊r.newWidth⌋, ⌊r.newHeight⌋) := by
  constructor
  · revert hok
    unfold resize_image_bytes
    rw [if_neg hH]
    exact resizeLoop_ok_le save _ _ limit fuel _ data [] out
  · intro r hr
    have hg : GoodRec save (Img.original imgW imgH) ((imgW : ℝ) / (imgH : ℝ)) limit r := by
      revert hr
      unfold resize_image_bytes
      rw [if_neg hH]
      exact fun hr => resizeLoop_trace save (Img.original imgW imgH) _ limit
        (div_nonneg (Nat.cast_nonneg _) (Nat.cast_nonneg _)) fuel _ data []
        (Nat.cast_nonneg _) (by simp) r hr
    exact ⟨hg.2.1, hg.2.2.2.2.1⟩

/-- Witness for the amended C1: a concrete over-limit input whose
first re-encode fits, with the conclusions evaluated there. -/
theorem resize_partial_correctness_witness :
    (1000 : ℕ) ≠ 0 ∧ (List.replicate 36 (0:ℕ)).length > 10 ∧
    (resize_image_bytes constSave8 2000 1000 (List.replicate 36 0) 10 (49+1)).2 =
      Except.ok (List.replicate 8 0) ∧
    ((List.replicate 8 (0:ℕ)).length ≤ 10 ∧
     ∀ r ∈ (resize_image_bytes constSave8 2000 1000 (List.replicate 36 0) 10 (49+1)).1,
       r.newHeight = r.newWidth / (((2000:ℕ) : ℝ) / ((1000:ℕ) : ℝ)) ∧
       r.resizeDims = (⌊r.newWidth⌋, ⌊r.newHeight⌋)) := by
  have hok : (resize_image_bytes constSave8 2000 1000 (List.replicate 36 0) 10 (49+1)).2 =
      Except.ok (List.replicate 8 0) := by rw [run1_eq]
  exact ⟨by norm_num, by simp, hok,
    resize_partial_correctness constSave8 2000 1000 (List.replicate 36 0) 10 (49+1)
      (List.replicate 8 0) (by norm_num) (by simp) hok⟩

/-- C4: an input already within the byte ceiling is returned
byte-identical, with no resize iteration at all (when the image
decodes with a non-zero height, so that the aspect computation
preceding the loop does not raise). -/
theorem resize_noop_when_under_limit (save : Img → List ℕ) (imgW imgH : ℕ)
    (data : List ℕ) (limit fuel : ℕ)
    (hH : imgH ≠ 0) (hle : data.length ≤ limit) :
    resize_image_bytes save imgW imgH data limit fuel = ([], Except.ok data) := by
  unfold resize_image_bytes
  rw [if_neg hH]
  exact resizeLoop_exit save _ _ limit fuel _ data [] hle

/-- Witness for C4 at a concrete under-limit input. -/
theorem resize_noop_when_under_limit_witness :
    (3 : ℕ) ≠ 0 ∧ ([(7:ℕ)]).length ≤ 5 ∧
    resize_image_bytes (fun _ => []) 4 3 [7] 5 2 = ([], Except.ok [7]) :=
  ⟨by norm_num, by simp,
   resize_noop_when_under_limit (fun _ => []) 4 3 [7] 5 2 (by norm_num) (by simp)⟩

/-- C6 counterexample: on a zero-height image resize_image_bytes does
perform the division by zero: the aspect computation raises
ZeroDivisionError, and no other kind of error is produced, so there is
no rejection distinct from the division by zero itself. -/
theorem resize_zero_height_division_counterexample :
    resize_image_bytes (fun _ => []) 5 0 [0, 0] 1 7 =
      ([], Except.error PyErr.zeroDivision)
    ∧ ¬ ∃ e, e ≠ PyErr.zeroDivision ∧
        resize_image_bytes (fun _ => []) 5 0 [0, 0] 1 7 = ([], Except.error e) := by
  have h : resize_image_bytes (fun _ => []) 5 0 [0, 0] 1 7 =
      ([], Except.error PyErr.zeroDivision) := by
    unfold resize_image_bytes
    rw [if_pos rfl]
  refine ⟨h, ?_⟩
  rintro ⟨e, hne, he⟩
  rw [h] at he
  simp at he
  exact hne he.symm

/-- C6 (amended): a zero-height input makes resize_image_bytes raise
ZeroDivisionError from the aspect computation itself, before any loop
iteration; there is no explicit validation step. -/
theorem resize_zero_height_zero_division (save : Img → List ℕ) (imgW : ℕ)
    (data : List ℕ) (limit fuel : ℕ) :
    resize_image_bytes save imgW 0 data limit fuel =
      ([], Except.error PyErr.zeroDivision) := by
  unfold resize_image_bytes
  rw [if_pos rfl]

/-- C7: every iteration of the resize loop computes
newWidth = widthBefore / sqrt(sizeBefore / (ceiling * 0.9)) and
newHeight = newWidth / aspect (aspect taken from the original decode),
resizes the original decoded image (never an intermediate downscale)
at the floor of the new dimensions, and re-encodes the result (the
recorded size is the length of the encoder output on that resized
image). -/
theorem resize_step_formulas (save : Img → List ℕ) (imgW imgH : ℕ)
    (data : List ℕ) (limit fuel : ℕ) (r : IterRecord)
    (hH : imgH ≠ 0)
    (hr : r ∈ (resize_image_bytes save imgW imgH data limit fuel).1) :
    r.newWidth = r.widthBefore / Real.sqrt ((r.sizeBefore : ℝ) / ((limit : ℝ) * (9/10)))
    ∧ r.newHeight = r.newWidth / ((imgW : ℝ) / (imgH : ℝ))
    ∧ r.resizeSrc = Img.original imgW imgH
    ∧ r.resizeDims = (⌊r.newWidth⌋, ⌊r.newHeight⌋)
    ∧ r.sizeAfter =
        (save (Img.resized (Img.original imgW imgH) ⌊r.newWidth⌋ ⌊r.newHeight⌋)).length := by
  have hg : GoodRec save (Img.original imgW imgH) ((imgW : ℝ) / (imgH : ℝ)) limit r := by
    revert hr
    unfold resize_image_bytes
    rw [if_neg hH]
    exact fun hr => resizeLoop_trace save (Img.original imgW imgH) _ limit
      (div_nonneg (Nat.cast_nonneg _) (Nat.cast_nonneg _)) fuel _ data []
      (Nat.cast_nonneg _) (by simp) r hr
  obtain ⟨h1, h2, h3, _, h5, h6, _⟩ := hg
  refine ⟨h1, h2, h3, h5, ?_⟩
  rw [h6, h5]

/-- Witness for C7 at the concrete one-iteration run of run1_eq. -/
theorem resize_step_formulas_witness :
    (1000 : ℕ) ≠ 0 ∧
    (⟨36, 2000, 1000, 500, Img.original 2000 1000, (1000, 500), 8⟩ : IterRecord) ∈
      (resize_image_bytes constSave8 2000 1000 (List.replicate 36 0) 10 (49+1)).1 ∧
    ((⟨36, 2000, 1000, 500, Img.original 2000 1000, (1000, 500), 8⟩ : IterRecord).newWidth =
        (⟨36, 2000, 1000, 500, Img.original 2000 1000, (1000, 500), 8⟩ : IterRecord).widthBefore /
          Real.sqrt (((⟨36, 2000, 1000, 500, Img.original 2000 1000, (1000, 500), 8⟩ :
            IterRecord).sizeBefore : ℝ) / (((10:ℕ) : ℝ) * (9/10)))
     ∧ (⟨36, 2000, 1000, 500, Img.original 2000 1000, (1000, 500), 8⟩ : IterRecord).newHeight =
        (⟨36, 2000, 1000, 500, Img.original 2000 1000, (1000, 500), 8⟩ : IterRecord).newWidth /
          (((2000:ℕ) : ℝ) / ((1000:ℕ) : ℝ))
     ∧ (⟨36, 2000, 1000, 500, Img.original 2000 1000, (1000, 500), 8⟩ : IterRecord).resizeSrc =
        Img.original 2000 1000
     ∧ (⟨36, 2000, 1000, 500, Img.original 2000 1000, (1000, 500), 8⟩ : IterRecord).resizeDims =
        (⌊(⟨36, 2000, 1000, 500, Img.original 2000 1000, (1000, 500), 8⟩ : IterRecord).newWidth⌋,
         ⌊(⟨36, 2000, 1000, 500, Img.original 2000 1000, (1000, 500), 8⟩ : IterRecord).newHeight⌋)
     ∧ (⟨36, 2000, 1000, 500, Img.original 2000 1000, (1000, 500), 8⟩ : IterRecord).sizeAfter =
        (constSave8 (Img.resized (Img.original 2000 1000)
          ⌊(⟨36, 2000, 1000, 500, Img.original 2000 1000, (1000, 500), 8⟩ : IterRecord).newWidth⌋
          ⌊(⟨36, 2000, 1000, 500, Img.original 2000 1000, (1000, 500), 8⟩ : IterRecord).newHeight⌋)).length) := by
  have hr : (⟨36, 2000, 1000, 500, Img.original 2000 1000, (1000, 500), 8⟩ : IterRecord) ∈
      (resize_image_bytes constSave8 2000 1000 (List.replicate 36 0) 10 (49+1)).1 := by
    rw [run1_eq]
    exact List.mem_singleton.mpr rfl
  exact ⟨by norm_num, hr,
    resize_step_formulas constSave8 2000 1000 (List.replicate 36 0) 10 (49+1) _
      (by norm_num) hr⟩

/-- C8 counterexample: resizing the 2000 by 1000 image under a ceiling
of 2 bytes (smaller than its 703125-byte encoding) ends with resize
dimensions (3, 1): a width/height ratio of 3, not within 1 percent of
2.0.  The floor truncation destroys the aspect ratio once the target
width is small. -/
theorem resize_small_width_ratio_counterexample :
    (List.replicate 703125 (0:ℕ)).length > 2 ∧
    (resize_image_bytes save31 2000 1000 (List.replicate 703125 0) 2 (49+1)).2 =
      Except.ok [0] ∧
    ((resize_image_bytes save31 2000 1000 (List.replicate 703125 0) 2 (49+1)).1).map
      IterRecord.resizeDims = [(3, 1)] ∧
    ¬ (|((3:ℤ) : ℝ) / ((1:ℤ) : ℝ) - 2| ≤ 2 / 100) := by
  refine ⟨by simp only [List.length_replicate]; norm_num, ?_, ?_, ?_⟩
  · rw [run2_eq]
  · rw [run2_eq]
    rfl
  · rw [show ((3:ℤ) : ℝ) / ((1:ℤ) : ℝ) - 2 = 1 by push_cast; norm_num]
    rw [abs_one]
    norm_num

/-- C8 (amended): on the 2000 by 1000 image, any resize iteration
whose real-valued target width is at least 202 (in particular a final
one producing the output) has integer dimensions whose ratio is within
1 percent of 2; below that, floor truncation can break the bound, as
the counterexample shows. -/
theorem resize_ratio_within_one_percent (save : Img → List ℕ) (data : List ℕ)
    (limit fuel : ℕ) (r : IterRecord)
    (hr : r ∈ (resize_image_bytes save 2000 1000 data limit fuel).1)
    (hw : (202 : ℝ) ≤ r.newWidth) :
    (99/50 : ℝ) ≤ (r.resizeDims.1 : ℝ) / (r.resizeDims.2 : ℝ) ∧
    (r.resizeDims.1 : ℝ) / (r.resizeDims.2 : ℝ) ≤ (101/50 : ℝ) := by
  have hg : GoodRec save (Img.original 2000 1000) (((2000:ℕ) : ℝ) / ((1000:ℕ) : ℝ)) limit r := by
    revert hr
    unfold resize_image_bytes
    rw [if_neg (by norm_num : ¬(1000 : ℕ) = 0)]
    exact fun hr => resizeLoop_trace save (Img.original 2000 1000) _ limit
      (div_nonneg (Nat.cast_nonneg _) (Nat.cast_nonneg _)) fuel _ data []
      (Nat.cast_nonneg _) (by simp) r hr
  obtain ⟨_, h2, _, _, h5, _, _⟩ := hg
  have haspect : (((2000:ℕ) : ℝ) / ((1000:ℕ) : ℝ)) = 2 := by push_cast; norm_num
  rw [haspect] at h2
  have hd1 : r.resizeDims.1 = ⌊r.newWidth⌋ := by rw [h5]
  have hd2 : r.resizeDims.2 = ⌊r.newHeight⌋ := by rw [h5]
  rw [hd1, hd2, h2]
  set w := r.newWidth with hwdef
  have hA1 : ((⌊w⌋ : ℤ) : ℝ) ≤ w := Int.floor_le w
  have hA2 : w - 1 < ((⌊w⌋ : ℤ) : ℝ) := Int.sub_one_lt_floor w
  have hB1 : ((⌊w / 2⌋ : ℤ) : ℝ) ≤ w / 2 := Int.floor_le _
  have hB2 : w / 2 - 1 < ((⌊w / 2⌋ : ℤ) : ℝ) := Int.sub_one_lt_floor _
  have hB3 : (101 : ℝ) ≤ ((⌊w / 2⌋ : ℤ) : ℝ) := by
    have h : (101 : ℤ) ≤ ⌊w / 2⌋ := Int.le_floor.mpr (by push_cast; linarith)
    exact_mod_cast h
  have hBpos : (0 : ℝ) < ((⌊w / 2⌋ : ℤ) : ℝ) := by linarith
  constructor
  · rw [le_div_iff hBpos]
    linarith
  · rw [div_le_iff hBpos]
    linarith

/-- Witness for the amended C8 at the run1_eq record, whose target
width 1000 is above the threshold and whose dimensions (1000, 500)
have ratio exactly 2. -/
theorem resize_ratio_within_one_percent_witness :
    (⟨36, 2000, 1000, 500, Img.original 2000 1000, (1000, 500), 8⟩ : IterRecord) ∈
      (resize_image_bytes constSave8 2000 1000 (List.replicate 36 0) 10 (49+1)).1 ∧
    (202 : ℝ) ≤
      (⟨36, 2000, 1000, 500, Img.original 2000 1000, (1000, 500), 8⟩ : IterRecord).newWidth ∧
    ((99/50 : ℝ) ≤
      ((((⟨36, 2000, 1000, 500, Img.original 2000 1000, (1000, 500), 8⟩ :
          IterRecord).resizeDims.1 : ℤ) : ℝ) /
       (((⟨36, 2000, 1000, 500, Img.original 2000 1000, (1000, 500), 8⟩ :
          IterRecord).resizeDims.2 : ℤ) : ℝ)) ∧
     ((((⟨36, 2000, 1000, 500, Img.original 2000 1000, (1000, 500), 8⟩ :
          IterRecord).resizeDims.1 : ℤ) : ℝ) /
      (((⟨36, 2000, 1000, 500, Img.original 2000 1000, (1000, 500), 8⟩ :
          IterRecord).resizeDims.2 : ℤ) : ℝ)) ≤ (101/50 : ℝ)) := by
  have hr : (⟨36, 2000, 1000, 500, Img.original 2000 1000, (1000, 500), 8⟩ : IterRecord) ∈
      (resize_image_bytes constSave8 2000 1000 (List.replicate 36 0) 10 (49+1)).1 := by
    rw [run1_eq]
    exact List.mem_singleton.mpr rfl
  exact ⟨hr, by norm_num,
    resize_ratio_within_one_percent constSave8 (List.replicate 36 0) 10 (49+1) _
      hr (by norm_num)⟩

/-- C2: image_generation with prompt "a cat", sampleCount 4,
sampleImageSize 256, aspectRatio "1:1" hands the remote predict call
exactly the one-element instances list with the instance carrying only
the prompt, and exactly the three-field parameters object; the result
is the outcome of the remote call on exactly those arguments. -/
theorem generate_builds_exact_payload (rpc : Rpc) (key : String) (st : Session) :
    (image_generation rpc "a cat" 4 256 "1:1" key st).1 =
      ([JVal.obj [("prompt", JVal.str "a cat")]],
       JVal.obj [("sampleCount", JVal.num 4), ("sampleImageSize", JVal.num 256),
                 ("aspectRatio", JVal.str "1:1")]) ∧
    (image_generation rpc "a cat" 4 256 "1:1" key st).2 =
      (match rpc [JVal.obj [("prompt", JVal.str "a cat")]]
          (JVal.obj [("sampleCount", JVal.num 4), ("sampleImageSize", JVal.num 256),
                     ("aspectRatio", JVal.str "1:1")]) with
       | Except.ok preds => Except.ok (sessUpdate st key (SessVal.imgs preds))
       | Except.error e => Except.error e) :=
  ⟨rfl, rfl⟩

/-- C3: every edit_image_generation call sends a single instance whose
image field holds the base bytes base64-encoded; the mask field is
entirely absent when the mask bytes are empty and otherwise holds the
mask base64-encoded nested under mask.image.bytesBase64Encoded; the
parameters object is exactly the one-field sampleCount object. -/
theorem edit_payload_shape (rpc : Rpc) (prompt : String) (c : ℤ)
    (bytes mask : List ℕ) (key : String) (st : Session) :
    (edit_image_generation rpc prompt c bytes key mask st).1.2 =
      JVal.obj [("sampleCount", JVal.num c)] ∧
    ∃ inst, (edit_image_generation rpc prompt c bytes key mask st).1.1 = [inst] ∧
      JVal.lookup inst "image" =
        some (JVal.obj [("bytesBase64Encoded", JVal.str (b64encode bytes))]) ∧
      (if mask = [] then JVal.lookup inst "mask" = none
       else JVal.lookup inst "mask" =
         some (JVal.obj [("image",
           JVal.obj [("bytesBase64Encoded", JVal.str (b64encode mask))])])) := by
  by_cases hm : mask = []
  · subst hm
    refine ⟨rfl, ⟨_, rfl, rfl, ?_⟩⟩
    rw [if_pos rfl]
    rfl
  · refine ⟨rfl, ?_⟩
    have hinst : (edit_image_generation rpc prompt c bytes key mask st).1.1 =
        [JVal.obj ([("prompt", JVal.str prompt),
          ("image", JVal.obj [("bytesBase64Encoded", JVal.str (b64encode bytes))])] ++
          [("mask", JVal.obj [("image",
            JVal.obj [("bytesBase64Encoded", JVal.str (b64encode mask))])])])] := by
      simp only [edit_image_generation, predict_image]
      rw [if_neg hm]
    refine ⟨_, hinst, rfl, ?_⟩
    rw [if_neg hm]
    rfl

/-- Storing a predict result under a key: on success the session is
exactly the one-key update, on failure the exception propagates. -/
theorem storeResult_ok (res : Except String (List JVal)) (st : Session)
    (key : String) (st2 : Session)
    (h : (match res with
          | Except.ok preds => Except.ok (sessUpdate st key (SessVal.imgs preds))
          | Except.error e => Except.error e) = Except.ok st2) :
    (∀ k, k ≠ key → st2 k = st k) ∧
    ∃ preds, res = Except.ok preds ∧ st2 key = some (SessVal.imgs preds) := by
  cases res with
  | error e => simp at h
  | ok preds =>
    simp only [Except.ok.injEq] at h
    subst h
    refine ⟨fun k hk => ?_, ⟨preds, rfl, ?_⟩⟩
    · simp [sessUpdate, hk]
    · simp [sessUpdate]

/-- C10: a successful image_generation or edit_image_generation call
overwrites exactly the caller-supplied state key with the fresh
prediction list and leaves every other session key unchanged. -/
theorem success_writes_exactly_state_key :
    (∀ (rpc : Rpc) (p : String) (c s : ℤ) (a key : String) (st st2 : Session),
      (image_generation rpc p c s a key st).2 = Except.ok st2 →
      (∀ k, k ≠ key → st2 k = st k) ∧
      ∃ preds, rpc [JVal.obj [("prompt", JVal.str p)]]
          (JVal.obj [("sampleCount", JVal.num c), ("sampleImageSize", JVal.num s),
                     ("aspectRatio", JVal.str a)]) = Except.ok preds ∧
        st2 key = some (SessVal.imgs preds)) ∧
    (∀ (rpc : Rpc) (p : String) (c : ℤ) (bytes : List ℕ) (key : String)
        (mask : List ℕ) (st st2 : Session),
      (edit_image_generation rpc p c bytes key mask st).2 = Except.ok st2 →
      (∀ k, k ≠ key → st2 k = st k) ∧
      ∃ preds, rpc (edit_image_generation rpc p c bytes key mask st).1.1
          (edit_image_generation rpc p c bytes key mask st).1.2 = Except.ok preds ∧
        st2 key = some (SessVal.imgs preds)) := by
  constructor
  · intro rpc p c s a key st st2 h
    exact storeResult_ok (rpc [JVal.obj [("prompt", JVal.str p)]]
      (JVal.obj [("sampleCount", JVal.num c), ("sampleImageSize", JVal.num s),
                 ("aspectRatio", JVal.str a)])) st key st2 h
  · intro rpc p c bytes key mask st st2 h
    exact storeResult_ok
      (rpc (edit_image_generation rpc p c bytes key mask st).1.1
           (edit_image_generation rpc p c bytes key mask st).1.2) st key st2 h

/-- Witness for C10: a concrete successful generation and a concrete
successful edit, with the frame conclusions evaluated there. -/
theorem success_writes_exactly_state_key_witness :
    ((image_generation rpcConst "p" 1 2 "a" "k" stEmpty).2 =
        Except.ok (sessUpdate stEmpty "k" (SessVal.imgs [JVal.str "pic"])) ∧
      ((∀ k, k ≠ "k" → sessUpdate stEmpty "k" (SessVal.imgs [JVal.str "pic"]) k = stEmpty k) ∧
       ∃ preds, rpcConst [JVal.obj [("prompt", JVal.str "p")]]
          (JVal.obj [("sampleCount", JVal.num 1), ("sampleImageSize", JVal.num 2),
                     ("aspectRatio", JVal.str "a")]) = Except.ok preds ∧
        sessUpdate stEmpty "k" (SessVal.imgs [JVal.str "pic"]) "k" =
          some (SessVal.imgs preds))) ∧
    ((edit_image_generation rpcConst "p" 1 [1] "k2" [] stEmpty).2 =
        Except.ok (sessUpdate stEmpty "k2" (SessVal.imgs [JVal.str "pic"])) ∧
      ((∀ k, k ≠ "k2" → sessUpdate stEmpty "k2" (SessVal.imgs [JVal.str "pic"]) k = stEmpty k) ∧
       ∃ preds, rpcConst (edit_image_generation rpcConst "p" 1 [1] "k2" [] stEmpty).1.1
          (edit_image_generation rpcConst "p" 1 [1] "k2" [] stEmpty).1.2 = Except.ok preds ∧
        sessUpdate stEmpty "k2" (SessVal.imgs [JVal.str "pic"]) "k2" =
          some (SessVal.imgs preds))) := by
  refine ⟨⟨rfl, ?_⟩, ⟨rfl, ?_⟩⟩
  · exact success_writes_exactly_state_key.1 rpcConst "p" 1 2 "a" "k" stEmpty
      (sessUpdate stEmpty "k" (SessVal.imgs [JVal.str "pic"])) rfl
  · exact success_writes_exactly_state_key.2 rpcConst "p" 1 [1] "k2" [] stEmpty
      (sessUpdate stEmpty "k2" (SessVal.imgs [JVal.str "pic"])) rfl

/-- C5 counterexample: when the remote call fails during an edit
request, the edit submit handler surfaces two user-facing error
messages (st.error(e) followed by the generic notice), not exactly
one. -/
theorem edit_failure_two_messages_counterexample :
    (edit_submit_handler (fun _ _ => Except.error "boom") (fun b => Except.ok b) 10
       "make it blue" 4 "pk" "ek" "img" "mk" false
       (fun k => if k = "img" then some (SessVal.bytes [1]) else none)).msgs =
      [UiMsg.error "boom", UiMsg.error "Could not edit image. Try a different prompt."] ∧
    (edit_submit_handler (fun _ _ => Except.error "boom") (fun b => Except.ok b) 10
       "make it blue" 4 "pk" "ek" "img" "mk" false
       (fun k => if k = "img" then some (SessVal.bytes [1]) else none)).msgs.length ≠ 1 := by
  refine ⟨rfl, ?_⟩
  have h2 : (edit_submit_handler (fun _ _ => Except.error "boom") (fun b => Except.ok b) 10
       "make it blue" 4 "pk" "ek" "img" "mk" false
       (fun k => if k = "img" then some (SessVal.bytes [1]) else none)).msgs.length = 2 := rfl
  rw [h2]
  decide

/-- C5 (amended): when the remote call fails, the generation submit
handler surfaces exactly one error message while the edit submit
handler surfaces exactly two (the underlying error text, then the
generic notice); in both cases the slot under the caller-supplied
state key keeps its previous value. -/
theorem failure_messages_and_slot_preserved :
    (∀ (rpc : Rpc) (custom selp : String) (c s : ℤ) (a pk gk : String)
        (st : Session) (e : String),
      (∀ i p, rpc i p = Except.error e) → pk ≠ gk →
      (gen_submit_handler rpc custom selp c s a pk gk st).msgs =
        [UiMsg.error "Could not generate image. Try a different prompt."] ∧
      (gen_submit_handler rpc custom selp c s a pk gk st).session gk = st gk) ∧
    (∀ (rpc : Rpc) (resizeFn : List ℕ → Except String (List ℕ)) (limit : ℕ)
        (prompt : String) (c : ℤ) (pk ek ik mk : String) (mask : Bool)
        (st : Session) (bs : List ℕ) (e : String),
      (∀ i p, rpc i p = Except.error e) →
      st ik = some (SessVal.bytes bs) → bs ≠ [] → bs.length ≤ limit →
      prompt ≠ "" → pk ≠ ek →
      (edit_submit_handler rpc resizeFn limit prompt c pk ek ik mk mask st).msgs =
        [UiMsg.error e, UiMsg.error "Could not edit image. Try a different prompt."] ∧
      (edit_submit_handler rpc resizeFn limit prompt c pk ek ik mk mask st).session ek
        = st ek) := by
  constructor
  · intro rpc custom selp c s a pk gk st e hrpc hk
    refine ⟨?_, ?_⟩
    · simp only [gen_submit_handler, image_generation, predict_image, hrpc]
    · simp only [gen_submit_handler, image_generation, predict_image, hrpc]
      by_cases hc : custom ≠ ""
      · rw [if_pos hc]
        simp [sessUpdate, Ne.symm hk]
      · rw [if_neg hc]
  · intro rpc resizeFn limit prompt c pk ek ik mk mask st bs e hrpc hik hne hlen hprompt hkey
    have hnr : ¬ (bs.length > limit) := not_lt.mpr hlen
    refine ⟨?_, ?_⟩
    · simp only [edit_submit_handler, hik, if_pos hne, if_neg hnr,
        if_neg hprompt, edit_image_generation, predict_image, hrpc]
    · simp only [edit_submit_handler, hik, if_pos hne, if_neg hnr,
        if_neg hprompt, edit_image_generation, predict_image, hrpc]
      simp only [sessUpdate]
      rw [if_neg (Ne.symm hkey)]

/-- Witness for the amended C5: concrete failing generation and edit
runs, with the message lists and untouched slots evaluated there. -/
theorem failure_messages_and_slot_preserved_witness :
    ((gen_submit_handler (fun _ _ => Except.error "boom") "custom" "sel" 4 256 "1:1"
        "pk" "gk" stEmpty).msgs =
       [UiMsg.error "Could not generate image. Try a different prompt."] ∧
     (gen_submit_handler (fun _ _ => Except.error "boom") "custom" "sel" 4 256 "1:1"
        "pk" "gk" stEmpty).session "gk" = stEmpty "gk") ∧
    ((edit_submit_handler (fun _ _ => Except.error "boom") (fun b => Except.ok b) 10
        "make it blue" 4 "pk" "ek" "img" "mk" false
        (fun k => if k = "img" then some (SessVal.bytes [1]) else none)).msgs =
       [UiMsg.error "boom", UiMsg.error "Could not edit image. Try a different prompt."] ∧
     (edit_submit_handler (fun _ _ => Except.error "boom") (fun b => Except.ok b) 10
        "make it blue" 4 "pk" "ek" "img" "mk" false
        (fun k => if k = "img" then some (SessVal.bytes [1]) else none)).session "ek" =
       (fun k => if k = "img" then some (SessVal.bytes [1]) else none : Session) "ek") := by
  constructor
  · exact failure_messages_and_slot_preserved.1 (fun _ _ => Except.error "boom")
      "custom" "sel" 4 256 "1:1" "pk" "gk" stEmpty "boom" (fun _ _ => rfl) (by decide)
  · exact failure_messages_and_slot_preserved.2 (fun _ _ => Except.error "boom")
      (fun b => Except.ok b) 10 "make it blue" 4 "pk" "ek" "img" "mk" false
      (fun k => if k = "img" then some (SessVal.bytes [1]) else none) [1] "boom"
      (fun _ _ => rfl) rfl (by decide) (by decide) (by decide) (by decide)

/-- C9: submitting an edit with an empty prompt (and an image present
in the session) makes no remote call, leaves the whole session
unchanged (in particular the edited-images slot is not written), and
either surfaces the prompt error or propagates the resize exception,
both before any remote call. -/
theorem edit_empty_prompt_rejected (rpc : Rpc)
    (resizeFn : List ℕ → Except String (List ℕ)) (limit : ℕ) (c : ℤ)
    (pk ek ik mk : String) (mask : Bool) (st : Session) (bs : List ℕ)
    (hik : st ik = some (SessVal.bytes bs)) (hne : bs ≠ []) :
    (edit_submit_handler rpc resizeFn limit "" c pk ek ik mk mask st).calls = [] ∧
    (edit_submit_handler rpc resizeFn limit "" c pk ek ik mk mask st).session = st ∧
    ((edit_submit_handler rpc resizeFn limit "" c pk ek ik mk mask st).exn.isSome ∨
     (edit_submit_handler rpc resizeFn limit "" c pk ek ik mk mask st).msgs =
       [UiMsg.error "Provide a prompt for editing the image"]) := by
  simp only [edit_submit_handler, hik, if_pos hne]
  cases hres : (if bs.length > limit then resizeFn bs else Except.ok bs) with
  | error e => exact ⟨rfl, rfl, Or.inl rfl⟩
  | ok b2 =>
    simp only [if_true]
    exact ⟨trivial, trivial, Or.inr trivial⟩

/-- Witness for C9 at a concrete session holding an image, with an
empty prompt. -/
theorem edit_empty_prompt_rejected_witness :
    ((fun k => if k = "img" then some (SessVal.bytes [1]) else none : Session) "img" =
       some (SessVal.bytes [1])) ∧ ([1] : List ℕ) ≠ [] ∧
    ((edit_submit_handler (fun _ _ => Except.error "boom") (fun b => Except.ok b) 10
        "" 4 "pk" "ek" "img" "mk" false
        (fun k => if k = "img" then some (SessVal.bytes [1]) else none)).calls = [] ∧
     (edit_submit_handler (fun _ _ => Except.error "boom") (fun b => Except.ok b) 10
        "" 4 "pk" "ek" "img" "mk" false
        (fun k => if k = "img" then some (SessVal.bytes [1]) else none)).session =
       (fun k => if k = "img" then some (SessVal.bytes [1]) else none) ∧
     ((edit_submit_handler (fun _ _ => Except.error "boom") (fun b => Except.ok b) 10
        "" 4 "pk" "ek" "img" "mk" false
        (fun k => if k = "img" then some (SessVal.bytes [1]) else none)).exn.isSome ∨
      (edit_submit_handler (fun _ _ => Except.error "boom") (fun b => Except.ok b) 10
        "" 4 "pk" "ek" "img" "mk" false
        (fun k => if k = "img" then some (SessVal.bytes [1]) else none)).msgs =
       [UiMsg.error "Provide a prompt for editing the image"])) :=
  ⟨rfl, by decide,
   edit_empty_prompt_rejected (fun _ _ => Except.error "boom") (fun b => Except.ok b)
     10 4 "pk" "ek" "img" "mk" false
     (fun k => if k = "img" then some (SessVal.bytes [1]) else none) [1] rfl (by decide)⟩
